import Mathlib

/-!
Shallow embedding of the transaction-ledger model shared by the three
dashboard variants of this repository:
  src/DDP_PROJECT/DDP_PROJECT.py, src/DDP_PROJECT/b.py, src/cobacoba.py.
Amounts (Python floats entered with two decimals) are modelled as rationals;
dates (calendar dates with a total order) as integers.  UI message emission
(st.error / st.success) is modelled as the result component of each
operation's return value.
-/

namespace Ledger

/-- The transaction record appended by add_transaction in all three variants:
the dict {date, description, amount, category, type}. -/
structure Txn where
  date : Int
  description : String
  amount : ℚ
  category : String
  type : String
deriving Repr, DecidableEq

/-- calculate_total_income (DDP_PROJECT.py lines 8-9; identical in b.py
lines 17-18 and cobacoba.py lines 15-16): sum of amount over transactions
whose type is the literal "Income". -/
def calculate_total_income (transactions : List Txn) : ℚ :=
  ((transactions.filter fun t => t.type == "Income").map Txn.amount).sum

/-- calculate_total_expenses (DDP_PROJECT.py lines 12-13; identical in b.py
and cobacoba.py): sum of amount over transactions whose type is the
literal "Expense". -/
def calculate_total_expenses (transactions : List Txn) : ℚ :=
  ((transactions.filter fun t => t.type == "Expense").map Txn.amount).sum

/-- calculate_balance (DDP_PROJECT.py lines 16-19; b.py lines 23-24,
cobacoba.py lines 21-22): income minus expenses. -/
def calculate_balance (transactions : List Txn) : ℚ :=
  calculate_total_income transactions - calculate_total_expenses transactions

/-- Result of add_transaction: the st.success / st.error message emitted. -/
inductive AddResult where
  | ok
  | invalidAmount
  | invalidType
deriving Repr, DecidableEq

/-- add_transaction of DDP_PROJECT.py (lines 22-36): rejects amount ≤ 0
("Amount must be positive!"), then rejects a type outside
['Income', 'Expense'] ("Invalid transaction type!"), else appends the new
transaction dict at the end of the list. -/
def add_transaction (transactions : List Txn) (date : Int) (description : String)
    (amount : ℚ) (category : String) (transaction_type : String) :
    AddResult × List Txn :=
  if amount ≤ 0 then (.invalidAmount, transactions)
  else if transaction_type ∉ (["Income", "Expense"] : List String) then
    (.invalidType, transactions)
  else (.ok, transactions ++ [⟨date, description, amount, category, transaction_type⟩])

/-- add_transaction of b.py (lines 29-40) and cobacoba.py (lines 27-38),
which are textually identical: rejects amount ≤ 0, performs NO check of
the transaction type, and appends the new transaction dict. -/
def add_transaction_b (transactions : List Txn) (date : Int) (description : String)
    (amount : ℚ) (category : String) (transaction_type : String) :
    AddResult × List Txn :=
  if amount ≤ 0 then (.invalidAmount, transactions)
  else (.ok, transactions ++ [⟨date, description, amount, category, transaction_type⟩])

/-- Result of delete_transaction: the message emitted by DDP_PROJECT.py. -/
inductive DeleteResult where
  | ok
  | indexOutOfRange
deriving Repr, DecidableEq

/-- delete_transaction of DDP_PROJECT.py (lines 39-44): if 0 ≤ index <
len(transactions), `del transactions[index]` and success message, else
error message ("Invalid index!") and no mutation.  The index comes from
a number input and may in principle be any integer. -/
def delete_transaction (transactions : List Txn) (index : Int) :
    DeleteResult × List Txn :=
  if 0 ≤ index ∧ index < transactions.length then
    (.ok, transactions.eraseIdx index.toNat)
  else (.indexOutOfRange, transactions)

/-- delete_transaction of b.py (lines 42-45) and cobacoba.py (lines 40-43):
same guard and deletion, but on an invalid index it silently does nothing
(no st.error call).  The Bool records whether the success message was
emitted. -/
def delete_transaction_b (transactions : List Txn) (index : Int) :
    Bool × List Txn :=
  if 0 ≤ index ∧ index < transactions.length then
    (true, transactions.eraseIdx index.toNat)
  else (false, transactions)

/-- A mutation of the session ledger: an Add Transaction form submission or
a delete request from the View Transactions page. -/
inductive Op where
  | add (date : Int) (description : String) (amount : ℚ) (category : String)
      (transaction_type : String)
  | delete (index : Int)

/-- Applying one operation to the ledger (DDP_PROJECT.py variant). -/
def applyOp (transactions : List Txn) : Op → List Txn
  | .add d de a c ty => (add_transaction transactions d de a c ty).2
  | .delete i => (delete_transaction transactions i).2

/-- All ledger states reachable from the empty session ledger
(st.session_state.transactions = []) by a sequence of operations. -/
def applyOps (ops : List Op) : List Txn :=
  ops.foldl applyOp []

/-- The expense rows selected on the chart / budget pages:
`[t for t in transactions if t['type'] == 'Expense']`. -/
def expense_list (transactions : List Txn) : List Txn :=
  transactions.filter fun t => t.type == "Expense"

/-- `df.groupby('category')['amount'].sum()` over the expense rows
(plot_expense_pie, DDP_PROJECT.py lines 47-57; plot_expense_bar,
cobacoba.py lines 48-56; the Budget Analysis pages): one entry per distinct
category among the expense rows, holding the sum of their amounts.  pandas
returns the keys sorted alphabetically; they are modelled here in
first-occurrence order, which is immaterial to the mapping. -/
def category_sum (transactions : List Txn) : List (String × ℚ) :=
  ((expense_list transactions).map Txn.category).dedup.map fun c =>
    (c, (((expense_list transactions).filter fun t => t.category == c).map Txn.amount).sum)

/-- `category_sum.get(cat, 0)`: the summed expense for a category,
defaulting to 0 when the category has no expense rows. -/
def actual_for (cs : List (String × ℚ)) (c : String) : ℚ :=
  (cs.lookup c).getD 0

/-- Status message emitted by the budget comparison loops. -/
inductive BudgetStatus where
  | overBudget
  | underBudget
deriving Repr, DecidableEq

/-- The Compare loop of the Budget Analysis page (DDP_PROJECT.py lines
162-168): for each (cat, budget) entry of the caller-supplied budgets dict,
with actual = category_sum.get(cat, 0), emit an over-budget st.error when
actual > budget and budget > 0, an under-budget st.success when budget > 0,
and no message otherwise.  The Analisis Budget pages of b.py (lines
176-187) and cobacoba.py (lines 193-204) run the same comparison per
category. -/
def budget_compare (cs : List (String × ℚ)) (budgets : List (String × ℚ)) :
    List (String × BudgetStatus) :=
  budgets.filterMap fun cb =>
    if actual_for cs cb.1 > cb.2 ∧ cb.2 > 0 then some (cb.1, BudgetStatus.overBudget)
    else if cb.2 > 0 then some (cb.1, BudgetStatus.underBudget)
    else none

/-- The signed contribution used to build the cumulative column in
plot_balance_over_time (all three variants):
`x['amount'] if x['type'] == 'Income' else -x['amount']`.  Note the code
negates the amount of every non-Income row, whatever its type string. -/
def signed_code (t : Txn) : ℚ :=
  if t.type == "Income" then t.amount else -t.amount

/-- The signed contribution in the spec's words: +amount for type Income,
−amount for type Expense (the spec's data model admits no other type).
Stated separately from signed_code to compare the two. -/
def signedSpec (t : Txn) : ℚ :=
  if t.type == "Income" then t.amount
  else if t.type == "Expense" then -t.amount
  else 0

/-- Stable insertion of a transaction into a date-sorted list: the new
transaction goes after every transaction whose date is ≤ its own. -/
def insertByDate (t : Txn) : List Txn → List Txn
  | [] => [t]
  | u :: us => if u.date ≤ t.date then u :: insertByDate t us else t :: u :: us

/-- `df.sort_values('date')`: the transactions rearranged into ascending
date order.  Modelled as a stable insertion sort; pandas' default sort kind
is quicksort, so the relative order of equal dates beyond this model is an
implementation detail of numpy (see the development's notes on stability). -/
def sortByDate : List Txn → List Txn
  | [] => []
  | t :: ts => insertByDate t (sortByDate ts)

/-- The `.cumsum()` column zipped with the date column, starting from a
given accumulator: one (date, running balance) point per row. -/
def cumsum_from (acc : ℚ) : List Txn → List (Int × ℚ)
  | [] => []
  | t :: ts => (t.date, acc + signed_code t) :: cumsum_from (acc + signed_code t) ts

/-- The point sequence plotted by plot_balance_over_time (DDP_PROJECT.py
lines 60-74; b.py lines 64-87; cobacoba.py lines 58-72): sort by date, then
one point per transaction carrying the cumulative sum of the signed
contributions.  An empty ledger draws nothing (empty sequence). -/
def plot_balance_over_time (transactions : List Txn) : List (Int × ℚ) :=
  cumsum_from 0 (sortByDate transactions)

/-- Sample transaction from the spec's concrete scenario. -/
def tSalary : Txn := ⟨1, "Salary", 5000, "Salary", "Income"⟩

/-- Sample transaction from the spec's concrete scenario. -/
def tBus : Txn := ⟨2, "Bus", 50, "Transport", "Expense"⟩

/-- Sample transaction from the spec's concrete scenario. -/
def tGroceries : Txn := ⟨3, "Groceries", 200, "Food", "Expense"⟩

/-- Sample transaction from the spec's expensesByCategory scenario. -/
def tFood2 : Txn := ⟨4, "Snack", 100, "Food", "Expense"⟩

/-- Sample transaction whose type is neither Income nor Expense. -/
def tTransfer : Txn := ⟨5, "transfer", 10, "Other", "Transfer"⟩

/-- C1: for every ledger state reachable from the empty ledger by any
sequence of add and delete operations, balance() equals totalIncome()
minus totalExpenses(). -/
theorem balance_eq_income_sub_expenses (ops : List Op) :
    calculate_balance (applyOps ops) =
      calculate_total_income (applyOps ops) - calculate_total_expenses (applyOps ops) :=
  rfl

/-- C2 counterexample: in the b.py / cobacoba.py variant, an add call with
amount 1 > 0 and type "Transfer" ∉ {Income, Expense} is not rejected: the
transaction is appended to the ledger. -/
theorem add_invalid_type_counterexample :
    (0 : ℚ) < 1 ∧ ("Transfer" : String) ∉ (["Income", "Expense"] : List String) ∧
    (add_transaction_b [] 1 "transfer" 1 "Other" "Transfer").1 = AddResult.ok ∧
    (add_transaction_b [] 1 "transfer" 1 "Other" "Transfer").2 ≠ ([] : List Txn) := by
  refine ⟨by norm_num, by decide, ?_, ?_⟩ <;> norm_num [add_transaction_b]

/-- C2 (amended): with amount > 0 and a type outside {Income, Expense}, the
DDP_PROJECT.py variant rejects the add with InvalidType and leaves the ledger
unchanged, while the b.py / cobacoba.py variant performs no type check and
appends the transaction. -/
theorem add_invalid_type_amended (ts : List Txn) (d : Int) (de : String) (a : ℚ)
    (c : String) (ty : String) (ha : 0 < a)
    (hty : ty ∉ (["Income", "Expense"] : List String)) :
    add_transaction ts d de a c ty = (AddResult.invalidType, ts) ∧
    add_transaction_b ts d de a c ty = (AddResult.ok, ts ++ [⟨d, de, a, c, ty⟩]) := by
  constructor
  · rw [add_transaction, if_neg (not_le.mpr ha), if_pos hty]
  · rw [add_transaction_b, if_neg (not_le.mpr ha)]

/-- C2 witness: the amended statement at a concrete invalid-type add call. -/
theorem add_invalid_type_amended_witness :
    add_transaction [] 1 "transfer" 1 "Other" "Transfer" = (AddResult.invalidType, []) ∧
    add_transaction_b [] 1 "transfer" 1 "Other" "Transfer" =
      (AddResult.ok, [⟨1, "transfer", 1, "Other", "Transfer"⟩]) := by
  have h := add_invalid_type_amended [] 1 "transfer" 1 "Other" "Transfer"
    (by norm_num) (by decide)
  simpa using h

/-- C3: delete succeeds iff 0 ≤ index < length; on success the transaction
at index is removed, every higher index shifts down by one and the length
decreases by exactly 1; on any invalid index the result is IndexOutOfRange
and the ledger is unchanged.  The b.py / cobacoba.py variant performs the
same ledger update and succeeds in exactly the same cases (it merely omits
the error message). -/
theorem delete_transaction_spec (ts : List Txn) (i : Int) :
    ((delete_transaction ts i).1 = DeleteResult.ok ↔ 0 ≤ i ∧ i < ts.length) ∧
    ((delete_transaction ts i).1 = DeleteResult.ok →
      (delete_transaction ts i).2.length + 1 = ts.length ∧
      ∀ j : Nat, (delete_transaction ts i).2[j]? =
        if j < i.toNat then ts[j]? else ts[j + 1]?) ∧
    ((delete_transaction ts i).1 = DeleteResult.indexOutOfRange →
      (delete_transaction ts i).2 = ts) ∧
    ((delete_transaction_b ts i).1 = true ↔ (delete_transaction ts i).1 = DeleteResult.ok) ∧
    (delete_transaction_b ts i).2 = (delete_transaction ts i).2 := by
  by_cases h : 0 ≤ i ∧ i < ts.length
  · have hi : i.toNat < ts.length := by omega
    refine ⟨?_, ?_, ?_, ?_, ?_⟩
    · simp [delete_transaction, h]
    · intro _
      rw [delete_transaction, if_pos h]
      exact ⟨List.length_eraseIdx_add_one hi, fun j => List.getElem?_eraseIdx ts i.toNat j⟩
    · intro hko
      rw [delete_transaction, if_pos h] at hko
      exact absurd hko (by simp)
    · simp [delete_transaction, delete_transaction_b, h]
    · simp [delete_transaction, delete_transaction_b, h]
  · refine ⟨?_, ?_, ?_, ?_, ?_⟩
    · simp [delete_transaction, h]
    · intro hok
      rw [delete_transaction, if_neg h] at hok
      exact absurd hok (by simp)
    · intro _
      rw [delete_transaction, if_neg h]
    · simp [delete_transaction, delete_transaction_b, h]
    · simp [delete_transaction, delete_transaction_b, h]

/-- C3 witness: the delete specification at a concrete two-element ledger
and index 0 yields success, and at index 5 yields IndexOutOfRange with the
ledger unchanged. -/
theorem delete_transaction_spec_witness :
    (delete_transaction [tSalary, tBus] 0).1 = DeleteResult.ok ∧
    (delete_transaction [tSalary, tBus] 0).2 = [tBus] ∧
    (delete_transaction [tSalary, tBus] 5).2 = [tSalary, tBus] := by
  refine ⟨(delete_transaction_spec [tSalary, tBus] 0).1.mpr (by decide), by decide,
    (delete_transaction_spec [tSalary, tBus] 5).2.2.1 (by decide)⟩

/-- C4: an add call with amount ≤ 0 is rejected with InvalidAmount in all
three variants, and the ledger (hence its length) is unchanged. -/
theorem add_nonpositive_amount_rejected (ts : List Txn) (d : Int) (de : String)
    (a : ℚ) (c : String) (ty : String) (ha : a ≤ 0) :
    add_transaction ts d de a c ty = (AddResult.invalidAmount, ts) ∧
    add_transaction_b ts d de a c ty = (AddResult.invalidAmount, ts) ∧
    (add_transaction ts d de a c ty).2.length = ts.length ∧
    (add_transaction_b ts d de a c ty).2.length = ts.length := by
  rw [add_transaction, add_transaction_b, if_pos ha, if_pos ha]
  exact ⟨rfl, rfl, rfl, rfl⟩

/-- C4 witness: the spec's concrete rejected amounts 0 and -5. -/
theorem add_nonpositive_amount_rejected_witness :
    add_transaction [tSalary] 1 "x" 0 "Food" "Expense" = (AddResult.invalidAmount, [tSalary]) ∧
    add_transaction_b [tSalary] 1 "x" (-5) "Food" "Expense" =
      (AddResult.invalidAmount, [tSalary]) :=
  ⟨(add_nonpositive_amount_rejected [tSalary] 1 "x" 0 "Food" "Expense" (by norm_num)).1,
   (add_nonpositive_amount_rejected [tSalary] 1 "x" (-5) "Food" "Expense" (by norm_num)).2.1⟩

/-- C7: the per-category expense aggregation maps each present category to
the sum of amounts of exactly the Expense transactions in that category,
its key set is exactly the distinct categories occurring among Expense
transactions, and it is empty when the ledger has no Expense transaction. -/
theorem expenses_by_category_spec (ts : List Txn) :
    (∀ c v, (c, v) ∈ category_sum ts ↔
      ((∃ t ∈ ts, t.type = "Expense" ∧ t.category = c) ∧
        v = ((ts.filter fun t => t.category == c && t.type == "Expense").map Txn.amount).sum)) ∧
    (category_sum ts).map Prod.fst = ((expense_list ts).map Txn.category).dedup ∧
    ((∀ t ∈ ts, t.type ≠ "Expense") → category_sum ts = []) := by
  have hsub : ∀ c : String,
      (expense_list ts).filter (fun t => t.category == c) =
        ts.filter fun t => t.category == c && t.type == "Expense" := by
    intro c
    rw [expense_list, List.filter_filter]
  refine ⟨?_, ?_, ?_⟩
  · intro c v
    constructor
    · intro hm
      rw [category_sum, List.mem_map] at hm
      obtain ⟨c', hc', heq⟩ := hm
      have hc : c' = c := congrArg Prod.fst heq
      have hv : v = (((expense_list ts).filter fun t => t.category == c').map Txn.amount).sum :=
        (congrArg Prod.snd heq).symm
      subst hc
      rw [List.mem_dedup, List.mem_map] at hc'
      obtain ⟨t, ht, htc⟩ := hc'
      rw [expense_list, List.mem_filter] at ht
      exact ⟨⟨t, ht.1, by simpa using ht.2, htc⟩, by rw [hv, hsub]⟩
    · rintro ⟨⟨t, ht, hty, htc⟩, hv⟩
      rw [category_sum, List.mem_map]
      refine ⟨c, ?_, ?_⟩
      · rw [List.mem_dedup, List.mem_map]
        exact ⟨t, by rw [expense_list, List.mem_filter]; exact ⟨ht, by simp [hty]⟩, htc⟩
      · rw [hsub, ← hv]
  · have hid : (Prod.fst ∘ fun c : String =>
        (c, (((expense_list ts).filter fun t => t.category == c).map Txn.amount).sum)) = id :=
      rfl
    rw [category_sum, List.map_map, hid, List.map_id]
  · intro hno
    have he : expense_list ts = [] :=
      List.filter_eq_nil_iff.mpr fun t ht => by simp [hno t ht]
    simp [category_sum, he]

/-- C7 witness: the spec's concrete scenario — expenses Food:200,
Transport:50, Food:100 aggregate to Food:300 and Transport:50. -/
theorem expenses_by_category_spec_witness :
    ("Food", (300 : ℚ)) ∈ category_sum [tGroceries, tBus, tFood2] ∧
    ("Transport", (50 : ℚ)) ∈ category_sum [tGroceries, tBus, tFood2] := by
  refine ⟨((expenses_by_category_spec [tGroceries, tBus, tFood2]).1 "Food" 300).mpr ?_,
    ((expenses_by_category_spec [tGroceries, tBus, tFood2]).1 "Transport" 50).mpr ?_⟩
  · refine ⟨⟨tGroceries, by simp, by simp [tGroceries], by simp [tGroceries]⟩, ?_⟩
    simp [tGroceries, tBus, tFood2, List.filter_cons]
    norm_num
  · refine ⟨⟨tBus, by simp, by simp [tBus], by simp [tBus]⟩, ?_⟩
    simp [tGroceries, tBus, tFood2, List.filter_cons]

/-- C10: a transaction whose type is neither "Income" nor "Expense"
contributes to neither total: appending it (as the b.py / cobacoba.py add
does for any positive amount) leaves totalIncome, totalExpenses and hence
balance unchanged. -/
theorem unknown_type_leaves_totals_unchanged (ts : List Txn) (t : Txn)
    (h1 : t.type ≠ "Income") (h2 : t.type ≠ "Expense") :
    calculate_total_income (ts ++ [t]) = calculate_total_income ts ∧
    calculate_total_expenses (ts ++ [t]) = calculate_total_expenses ts ∧
    calculate_balance (ts ++ [t]) = calculate_balance ts ∧
    (0 < t.amount →
      (add_transaction_b ts t.date t.description t.amount t.category t.type).2 = ts ++ [t]) := by
  have hi : calculate_total_income (ts ++ [t]) = calculate_total_income ts := by
    simp [calculate_total_income, List.filter_append, h1]
  have he : calculate_total_expenses (ts ++ [t]) = calculate_total_expenses ts := by
    simp [calculate_total_expenses, List.filter_append, h2]
  refine ⟨hi, he, by rw [calculate_balance, calculate_balance, hi, he], ?_⟩
  intro ha
  rw [add_transaction_b, if_neg (not_le.mpr ha)]

/-- C10 witness: appending a "Transfer" transaction to a concrete ledger
leaves its balance unchanged, and the b.py add indeed appends it. -/
theorem unknown_type_leaves_totals_unchanged_witness :
    calculate_balance ([tSalary, tBus] ++ [tTransfer]) = calculate_balance [tSalary, tBus] ∧
    (add_transaction_b [tSalary, tBus] tTransfer.date tTransfer.description tTransfer.amount
        tTransfer.category tTransfer.type).2 = [tSalary, tBus] ++ [tTransfer] := by
  have h := unknown_type_leaves_totals_unchanged [tSalary, tBus] tTransfer (by decide) (by decide)
  exact ⟨h.2.2.1, h.2.2.2 (by decide)⟩

/-- Membership in the emitted budget statuses, characterised: a status for
category c comes from a budgets entry (c, b) with b > 0, and is over-budget
exactly when the actual expense exceeds b. -/
theorem mem_budget_compare {cs budgets : List (String × ℚ)} {c : String}
    {s : BudgetStatus} :
    (c, s) ∈ budget_compare cs budgets ↔
      ∃ b, (c, b) ∈ budgets ∧ 0 < b ∧
        s = if b < actual_for cs c then BudgetStatus.overBudget
            else BudgetStatus.underBudget := by
  rw [budget_compare, List.mem_filterMap]
  constructor
  · rintro ⟨⟨c', b⟩, hmem, hf⟩
    dsimp only at hf
    by_cases h1 : actual_for cs c' > b ∧ b > 0
    · rw [if_pos h1] at hf
      have h2 := Option.some.inj hf
      have hc : c' = c := congrArg Prod.fst h2
      have hs : s = BudgetStatus.overBudget := (congrArg Prod.snd h2).symm
      subst hc
      exact ⟨b, hmem, h1.2, by rw [hs, if_pos h1.1]⟩
    · rw [if_neg h1] at hf
      by_cases h2 : b > 0
      · rw [if_pos h2] at hf
        have h3 := Option.some.inj hf
        have hc : c' = c := congrArg Prod.fst h3
        have hs : s = BudgetStatus.underBudget := (congrArg Prod.snd h3).symm
        subst hc
        have hle : ¬ b < actual_for cs c' := fun hlt => h1 ⟨hlt, h2⟩
        exact ⟨b, hmem, h2, by rw [hs, if_neg hle]⟩
      · rw [if_neg h2] at hf
        exact absurd hf (by simp)
  · rintro ⟨b, hmem, hb, rfl⟩
    refine ⟨(c, b), hmem, ?_⟩
    dsimp only
    by_cases hlt : b < actual_for cs c
    · rw [if_pos ⟨hlt, hb⟩, if_pos hlt]
    · rw [if_neg fun hx => hlt hx.1, if_pos hb, if_neg hlt]

/-- In a list with pairwise-distinct keys (a dict), a key determines its
value. -/
theorem key_unique : ∀ {l : List (String × ℚ)}, (l.map Prod.fst).Nodup →
    ∀ {c : String} {b b' : ℚ}, (c, b) ∈ l → (c, b') ∈ l → b = b' := by
  intro l
  induction l with
  | nil => intro _ c b b' h; cases h
  | cons hd tl ih =>
    intro hnd c b b' h h'
    rw [List.map_cons, List.nodup_cons] at hnd
    rcases List.mem_cons.mp h with heq | hmem
    · rcases List.mem_cons.mp h' with heq' | hmem'
      · exact congrArg Prod.snd (heq.trans heq'.symm)
      · exfalso
        apply hnd.1
        rw [← heq]
        exact List.mem_map.mpr ⟨(c, b'), hmem', rfl⟩
    · rcases List.mem_cons.mp h' with heq' | hmem'
      · exfalso
        apply hnd.1
        rw [← heq']
        exact List.mem_map.mpr ⟨(c, b), hmem, rfl⟩
      · exact ih hnd.2 hmem hmem'

/-- C8: applied to expensesByCategory() and a caller-supplied
category→budget dict, the comparison emits, for each category with budget
strictly greater than 0, OverBudget exactly when the actual summed expense
exceeds the budget and UnderBudget otherwise; a category whose budget is 0
(or negative) or absent from the dict gets no status at all. -/
theorem budget_compare_spec (cs budgets : List (String × ℚ))
    (hnd : (budgets.map Prod.fst).Nodup) :
    (∀ c b, (c, b) ∈ budgets → 0 < b →
      (((c, BudgetStatus.overBudget) ∈ budget_compare cs budgets ↔
          b < actual_for cs c) ∧
       ((c, BudgetStatus.underBudget) ∈ budget_compare cs budgets ↔
          actual_for cs c ≤ b))) ∧
    (∀ c b, (c, b) ∈ budgets → b ≤ 0 →
      ∀ s, (c, s) ∉ budget_compare cs budgets) ∧
    (∀ c, c ∉ budgets.map Prod.fst → ∀ s, (c, s) ∉ budget_compare cs budgets) := by
  refine ⟨?_, ?_, ?_⟩
  · intro c b hmem hb
    constructor
    · constructor
      · intro hin
        obtain ⟨b', hmem', _, hs⟩ := mem_budget_compare.mp hin
        have hbb : b' = b := key_unique hnd hmem' hmem
        subst hbb
        by_contra hlt
        rw [if_neg hlt] at hs
        exact BudgetStatus.noConfusion hs
      · intro hlt
        exact mem_budget_compare.mpr ⟨b, hmem, hb, (if_pos hlt).symm⟩
    · constructor
      · intro hin
        obtain ⟨b', hmem', _, hs⟩ := mem_budget_compare.mp hin
        have hbb : b' = b := key_unique hnd hmem' hmem
        subst hbb
        by_contra hgt
        rw [if_pos (not_le.mp hgt)] at hs
        exact BudgetStatus.noConfusion hs
      · intro hle
        exact mem_budget_compare.mpr ⟨b, hmem, hb, (if_neg (not_lt.mpr hle)).symm⟩
  · intro c b hmem hb s hin
    obtain ⟨b', hmem', hb', _⟩ := mem_budget_compare.mp hin
    have hbb : b' = b := key_unique hnd hmem' hmem
    rw [hbb] at hb'
    exact absurd hb' (not_lt.mpr hb)
  · intro c hc s hin
    obtain ⟨b', hmem', _, _⟩ := mem_budget_compare.mp hin
    exact hc (List.mem_map.mpr ⟨(c, b'), hmem', rfl⟩)

/-- C8 witness: with actual Food expenses of 300, a Food budget of 250 is
reported over budget, and a Transport budget of 0 gets no status. -/
theorem budget_compare_spec_witness :
    ("Food", BudgetStatus.overBudget) ∈
      budget_compare [("Food", 300)] [("Food", 250), ("Transport", 0)] ∧
    ("Transport", BudgetStatus.underBudget) ∉
      budget_compare [("Food", 300)] [("Food", 250), ("Transport", 0)] := by
  have h := budget_compare_spec [("Food", 300)] [("Food", 250), ("Transport", 0)] (by simp)
  refine ⟨(h.1 "Food" 250 (by simp) (by norm_num)).1.mpr ?_,
    h.2.1 "Transport" 0 (by simp) le_rfl BudgetStatus.underBudget⟩
  norm_num [actual_for, List.lookup]

/-- Membership under date insertion. -/
theorem mem_insertByDate {u t : Txn} {l : List Txn} :
    u ∈ insertByDate t l ↔ u = t ∨ u ∈ l := by
  induction l with
  | nil => simp [insertByDate]
  | cons v vs ih =>
    rw [insertByDate]
    by_cases hv : v.date ≤ t.date
    · rw [if_pos hv, List.mem_cons, ih, List.mem_cons]
      tauto
    · rw [if_neg hv, List.mem_cons, List.mem_cons]

/-- Date insertion is a permutation: it merely repositions the new row. -/
theorem perm_insertByDate (t : Txn) (l : List Txn) :
    (insertByDate t l).Perm (t :: l) := by
  induction l with
  | nil => simp [insertByDate]
  | cons v vs ih =>
    rw [insertByDate]
    by_cases hv : v.date ≤ t.date
    · rw [if_pos hv]
      exact (ih.cons v).trans (List.Perm.swap t v vs)
    · rw [if_neg hv]

/-- The date sort is a permutation of the ledger. -/
theorem perm_sortByDate (ts : List Txn) : (sortByDate ts).Perm ts := by
  induction ts with
  | nil => simp [sortByDate]
  | cons t ts ih =>
    rw [sortByDate]
    exact (perm_insertByDate t (sortByDate ts)).trans (ih.cons t)

/-- Date insertion preserves ascending date order. -/
theorem pairwise_insertByDate {t : Txn} {l : List Txn}
    (h : l.Pairwise fun a b => a.date ≤ b.date) :
    (insertByDate t l).Pairwise fun a b => a.date ≤ b.date := by
  induction l with
  | nil => simp [insertByDate]
  | cons u us ih =>
    rw [List.pairwise_cons] at h
    rw [insertByDate]
    by_cases hu : u.date ≤ t.date
    · rw [if_pos hu, List.pairwise_cons]
      refine ⟨?_, ih h.2⟩
      intro v hv
      rcases mem_insertByDate.mp hv with rfl | hv
      · exact hu
      · exact h.1 v hv
    · rw [if_neg hu, List.pairwise_cons]
      refine ⟨?_, List.pairwise_cons.mpr h⟩
      intro v hv
      rcases List.mem_cons.mp hv with rfl | hv
      · exact le_of_not_le hu
      · exact le_trans (le_of_not_le hu) (h.1 v hv)

/-- The date sort produces ascending dates. -/
theorem pairwise_sortByDate (ts : List Txn) :
    (sortByDate ts).Pairwise fun a b => a.date ≤ b.date := by
  induction ts with
  | nil => simp [sortByDate]
  | cons t ts ih =>
    rw [sortByDate]
    exact pairwise_insertByDate ih

/-- The cumulative series has one point per row. -/
theorem length_cumsum_from (acc : ℚ) (s : List Txn) :
    (cumsum_from acc s).length = s.length := by
  induction s generalizing acc with
  | nil => rfl
  | cons t ts ih => simp [cumsum_from, ih]

/-- The i-th point of the cumulative series: the i-th row's date paired
with the accumulator plus the sum of the signed contributions of the first
i+1 rows. -/
theorem cumsum_from_getElem? (acc : ℚ) (s : List Txn) (i : Nat) :
    (cumsum_from acc s)[i]? =
      s[i]?.map fun t => (t.date, acc + ((s.take (i + 1)).map signed_code).sum) := by
  induction s generalizing acc i with
  | nil => simp [cumsum_from]
  | cons t ts ih =>
    cases i with
    | zero => simp [cumsum_from]
    | succ n =>
      rw [cumsum_from]
      simp only [List.getElem?_cons_succ, List.take_succ_cons, List.map_cons, List.sum_cons]
      rw [ih]
      cases h : ts[n]? with
      | none => simp
      | some u => simp [add_assoc]

/-- The last running balance of the cumulative series is the accumulator
plus the sum of all signed contributions. -/
theorem cumsum_from_getLast? (acc : ℚ) (s : List Txn) (hs : s ≠ []) :
    ((cumsum_from acc s).getLast?).map Prod.snd =
      some (acc + (s.map signed_code).sum) := by
  induction s generalizing acc with
  | nil => exact absurd rfl hs
  | cons t ts ih =>
    cases ts with
    | nil => simp [cumsum_from]
    | cons u us =>
      have h1 : cumsum_from acc (t :: u :: us) =
          (t.date, acc + signed_code t) :: cumsum_from (acc + signed_code t) (u :: us) := rfl
      have h2 : cumsum_from (acc + signed_code t) (u :: us) =
          (u.date, acc + signed_code t + signed_code u) ::
            cumsum_from (acc + signed_code t + signed_code u) us := rfl
      rw [h1, h2, List.getLast?_cons_cons, ← h2, ih (acc + signed_code t) (by simp)]
      simp [add_assoc]

/-- On a transaction of the spec's data model (type Income or Expense) the
code's signed contribution agrees with the spec's. -/
theorem signed_code_eq_signedSpec {t : Txn}
    (h : t.type = "Income" ∨ t.type = "Expense") :
    signed_code t = signedSpec t := by
  rcases h with h | h <;> simp [signed_code, signedSpec, h]

/-- Over a ledger of the spec's data model, the sum of the code's signed
contributions is the balance. -/
theorem sum_signed_eq_balance (ts : List Txn)
    (h : ∀ t ∈ ts, t.type = "Income" ∨ t.type = "Expense") :
    (ts.map signed_code).sum = calculate_balance ts := by
  induction ts with
  | nil => simp [calculate_balance, calculate_total_income, calculate_total_expenses]
  | cons t ts ih =>
    have ht := h t (List.mem_cons_self t ts)
    have ih' := ih fun u hu => h u (List.mem_cons_of_mem t hu)
    rw [List.map_cons, List.sum_cons, ih', calculate_balance, calculate_balance,
      calculate_total_income, calculate_total_income,
      calculate_total_expenses, calculate_total_expenses,
      List.filter_cons, List.filter_cons]
    rcases ht with hI | hE
    · rw [signed_code, if_pos (by simp [hI]), if_pos (by simp [hI]), if_neg (by simp [hI])]
      rw [List.map_cons, List.sum_cons]
      ring
    · rw [signed_code, if_neg (by simp [hE]), if_neg (by simp [hE]), if_pos (by simp [hE])]
      rw [List.map_cons, List.sum_cons]
      ring

/-- C6: the cumulative balance series has exactly one point per transaction
(duplicate dates included), its i-th point carries the i-th date-sorted
transaction's date and the sum of the signed contributions (+amount for
Income, −amount for Expense) of the first i+1 date-sorted transactions,
and the empty ledger yields the empty series.  The date-sorted sequence is
a date-ascending permutation of the ledger. -/
theorem cumulative_series_spec (ts : List Txn)
    (h : ∀ t ∈ ts, t.type = "Income" ∨ t.type = "Expense") :
    (plot_balance_over_time ts).length = ts.length ∧
    plot_balance_over_time ([] : List Txn) = [] ∧
    (sortByDate ts).Perm ts ∧
    ((sortByDate ts).Pairwise fun a b => a.date ≤ b.date) ∧
    ∀ i : Nat, (plot_balance_over_time ts)[i]? =
      (sortByDate ts)[i]?.map fun t =>
        (t.date, (((sortByDate ts).take (i + 1)).map signedSpec).sum) := by
  refine ⟨?_, rfl, perm_sortByDate ts, pairwise_sortByDate ts, ?_⟩
  · rw [plot_balance_over_time, length_cumsum_from, (perm_sortByDate ts).length_eq]
  · intro i
    rw [plot_balance_over_time, cumsum_from_getElem?]
    have hmap : ((sortByDate ts).take (i + 1)).map signed_code =
        ((sortByDate ts).take (i + 1)).map signedSpec :=
      List.map_congr_left fun t ht =>
        signed_code_eq_signedSpec
          (h t ((perm_sortByDate ts).mem_iff.mp (List.mem_of_mem_take ht)))
    rw [hmap]
    simp

/-- C6 witness: the spec's concrete scenario — Salary 5000 on day 1 (Income),
Groceries 200 on day 3 (Expense), Bus 50 on day 2 (Expense), inserted in
that order — yields the three date-sorted points (1,5000), (2,4950),
(3,4750). -/
theorem cumulative_series_spec_witness :
    (plot_balance_over_time [tSalary, tGroceries, tBus]).length = 3 ∧
    plot_balance_over_time [tSalary, tGroceries, tBus] =
      [(1, 5000), (2, 4950), (3, 4750)] := by
  constructor
  · have h := cumulative_series_spec [tSalary, tGroceries, tBus] (by decide)
    simpa using h.1
  · have hne : ¬ ("Expense" : String) = "Income" := by decide
    norm_num [plot_balance_over_time, sortByDate, insertByDate, cumsum_from, signed_code,
      tSalary, tGroceries, tBus, hne]

/-- C9: on a non-empty ledger whose transactions are all Income or Expense,
the running balance of the last point of the cumulative balance series
equals balance(). -/
theorem last_point_eq_balance (ts : List Txn) (hne : ts ≠ [])
    (h : ∀ t ∈ ts, t.type = "Income" ∨ t.type = "Expense") :
    ((plot_balance_over_time ts).getLast?).map Prod.snd =
      some (calculate_balance ts) := by
  have hs : sortByDate ts ≠ [] := by
    intro h0
    have p := perm_sortByDate ts
    rw [h0] at p
    exact hne p.symm.eq_nil
  rw [plot_balance_over_time, cumsum_from_getLast? 0 _ hs, zero_add,
    ((perm_sortByDate ts).map signed_code).sum_eq, sum_signed_eq_balance ts h]

/-- C9 witness: on the spec's concrete three-transaction scenario the last
point of the series carries exactly balance() = 4750. -/
theorem last_point_eq_balance_witness :
    ((plot_balance_over_time [tSalary, tGroceries, tBus]).getLast?).map Prod.snd =
      some (calculate_balance [tSalary, tGroceries, tBus]) :=
  last_point_eq_balance [tSalary, tGroceries, tBus] (by simp) (by decide)

end Ledger
